import Mathlib

deriving instance DecidableEq for Except

/-
Verification of the scalar-field compiler in
src/prost-amino-derive/src/field/scalar.rs (crate prost-amino-derive).

The file shallowly embeds the descriptor model (`Field`, `Ty`, `Kind`,
`DefaultValue`), the descriptor builder (`Field::new`, `Field::new_oneof`),
the default resolver (`DefaultValue::from_lit`, `DefaultValue::new`) and the
code emitter (`Field::encode`, `Field::merge`, `Field::encoded_len`).

The emitter returns token streams in the source; here each emitted operation
is embedded as a small abstract syntax tree recording the structure of the
generated expression: which primitive codec module and function is named,
which tag is spliced in, whether a prefix-byte argument is passed, and which
guard (default-omission, option-presence, none) wraps the call.

External collaborators that are not part of this repository are modelled and
marked as such in their doc comments: the `syn` literal re-parser, the
`set_option`/attribute-recognizer helpers of the field module, and the
amino disambiguation service (`compute_disfix`), the latter passed as an
injected pure function exactly as the spec prescribes for it.
-/

namespace Scalar

/-- Cardinality labels recognized on a field (field module; `optional`,
`required`, `repeated`). -/
inductive Label
  | optional
  | required
  | repeated
deriving DecidableEq, Repr

/-- A scalar protobuf field type (source: `enum Ty`, scalar.rs:385-402).
The `enumeration` payload is the referenced enum type's path, kept abstract
as a string. -/
inductive Ty
  | double
  | float
  | int32
  | int64
  | uint32
  | uint64
  | sint32
  | sint64
  | fixed32
  | fixed64
  | sfixed32
  | sfixed64
  | bool
  | string
  | bytes
  | enumeration (path : String)
deriving DecidableEq, Repr

/-- Source: `Ty::as_str` (scalar.rs:486-505). -/
def Ty.asStr : Ty → String
  | .double => "double"
  | .float => "float"
  | .int32 => "int32"
  | .int64 => "int64"
  | .uint32 => "uint32"
  | .uint64 => "uint64"
  | .sint32 => "sint32"
  | .sint64 => "sint64"
  | .fixed32 => "fixed32"
  | .fixed64 => "fixed64"
  | .sfixed32 => "sfixed32"
  | .sfixed64 => "sfixed64"
  | .bool => "bool"
  | .string => "string"
  | .bytes => "bytes"
  | .enumeration _ => "enum"

/-- Source: `Ty::module` (scalar.rs:538-543); the primitive codec module
name, with enumerations mapped to the `int32` codec. -/
def Ty.module : Ty → String
  | .enumeration _ => "int32"
  | t => t.asStr

/-- Source: `Ty::is_numeric` (scalar.rs:546-548):
`*self != Ty::String && *self != Ty::Bytes`. -/
def Ty.is_numeric (t : Ty) : Bool :=
  decide (t ≠ Ty.string) && decide (t ≠ Ty.bytes)

/-- Token-stream expressions naming enum values, as emitted by the source:
`defaultCall p` stands for the emitted `p::default()` and `variant p v`
for the emitted `p::v` (scalar.rs:648 and 755). -/
inductive EnumExpr
  | defaultCall (path : String)
  | variant (path : String) (name : List Char)
deriving DecidableEq, Repr

/-- A literal from the host annotation syntax (external `syn::Lit`), at the
level this compiler consumes it: integer literals carry their base-10 digit
value and suffix, float literals an exact rational reading of their digits
(no claim verified here depends on float rounding), plus bool, string and
byte-string literals.  Strings are carried as their character lists. -/
inductive Lit
  | int (value : Nat) (suffix : String)
  | float (value : Rat) (suffix : String)
  | boolLit (b : Bool)
  | str (s : List Char)
  | byteStr (bs : List Nat)
deriving DecidableEq, Repr

/-- Source: `enum DefaultValue` (scalar.rs:580-592).  `f32`/`f64` carry the
exact rational value of the resolved literal; `path` carries the named
constant path emitted for special floats (source variant `Path`);
`enumeration` carries the emitted enum expression. -/
inductive DefaultValue
  | f64 (v : Rat)
  | f32 (v : Rat)
  | i32 (v : Int)
  | i64 (v : Int)
  | u32 (v : Nat)
  | u64 (v : Nat)
  | bool (b : Bool)
  | string (s : List Char)
  | bytes (bs : List Nat)
  | enumeration (e : EnumExpr)
  | path (p : String)
deriving DecidableEq, Repr

/-- Source: `enum Kind` (scalar.rs:565-576). -/
inductive Kind
  | plain (d : DefaultValue)
  | optional (d : DefaultValue)
  | required (d : DefaultValue)
  | repeated
  | packed
deriving DecidableEq, Repr

/-- Source: `struct Field` (scalar.rs:15-21).  `aminoPre` is the source's
`amino_prefix` field (renamed; the registered-type prefix bytes). -/
structure Field where
  ty : Ty
  kind : Kind
  tag : Nat
  aminoPre : List Nat
deriving DecidableEq, Repr

/-- Source: the `is_i32` classifier computed in `DefaultValue::from_lit`
(scalar.rs:606). -/
def tyIsI32 (t : Ty) : Bool :=
  decide (t = Ty.int32) || decide (t = Ty.sint32) || decide (t = Ty.sfixed32)

/-- Source: the `is_i64` classifier (scalar.rs:607). -/
def tyIsI64 (t : Ty) : Bool :=
  decide (t = Ty.int64) || decide (t = Ty.sint64) || decide (t = Ty.sfixed64)

/-- Source: the `is_u32` classifier (scalar.rs:609). -/
def tyIsU32 (t : Ty) : Bool :=
  decide (t = Ty.uint32) || decide (t = Ty.fixed32)

/-- Source: the `is_u64` classifier (scalar.rs:610). -/
def tyIsU64 (t : Ty) : Bool :=
  decide (t = Ty.uint64) || decide (t = Ty.fixed64)

/-- Source: the `empty_or_is` closure (scalar.rs:612): the literal suffix
must equal the expected one or be absent. -/
def emptyOrIs (expected actual : String) : Bool :=
  decide (expected = actual) || decide (actual = "")

/-- Modelled external behavior: `syn`'s `LitInt::base10_parse::<i32>` on a
non-negative digit value: succeeds exactly when the value fits. -/
def base10I32 (v : Nat) : Except String Int :=
  if v ≤ 2147483647 then .ok (v : Int)
  else .error "number too large to fit in target type"

/-- Modelled external behavior: `base10_parse::<i64>`. -/
def base10I64 (v : Nat) : Except String Int :=
  if v ≤ 9223372036854775807 then .ok (v : Int)
  else .error "number too large to fit in target type"

/-- Modelled external behavior: `base10_parse::<u32>`. -/
def base10U32 (v : Nat) : Except String Nat :=
  if v ≤ 4294967295 then .ok v
  else .error "number too large to fit in target type"

/-- Modelled external behavior: `base10_parse::<u64>`. -/
def base10U64 (v : Nat) : Except String Nat :=
  if v ≤ 18446744073709551615 then .ok v
  else .error "number too large to fit in target type"

/-- The non-string arms of `DefaultValue::from_lit` (scalar.rs:614-640 and
the final catch-all at :736), in source order.  Integer literals for
float/double targets re-parse their digits regardless of suffix
(scalar.rs:631, :636, where `base10_parse::<f32/f64>` reads the digits). -/
def fromLitNonStr (ty : Ty) (lit : Lit) : Except String DefaultValue :=
  match lit with
  | .int v suffix =>
    if tyIsI32 ty && emptyOrIs "i32" suffix then (base10I32 v).map DefaultValue.i32
    else if tyIsI64 ty && emptyOrIs "i64" suffix then (base10I64 v).map DefaultValue.i64
    else if tyIsU32 ty && emptyOrIs "u32" suffix then (base10U32 v).map DefaultValue.u32
    else if tyIsU64 ty && emptyOrIs "u64" suffix then (base10U64 v).map DefaultValue.u64
    else if ty = Ty.float then .ok (.f32 (v : Rat))
    else if ty = Ty.double then .ok (.f64 (v : Rat))
    else .error "invalid default value"
  | .float v suffix =>
    if decide (ty = Ty.float) && emptyOrIs "f32" suffix then .ok (.f32 v)
    else if decide (ty = Ty.double) && emptyOrIs "f64" suffix then .ok (.f64 v)
    else .error "invalid default value"
  | .boolLit b => if ty = Ty.bool then .ok (.bool b) else .error "invalid default value"
  | .byteStr bs => if ty = Ty.bytes then .ok (.bytes bs) else .error "invalid default value"
  | .str _ => .error "invalid default value"

/-- Rust's `str::trim`: strip whitespace from both ends. -/
def trim (s : List Char) : List Char :=
  ((s.dropWhile Char.isWhitespace).reverse.dropWhile Char.isWhitespace).reverse

/-- Value of an all-digit character list, `none` when empty or containing a
non-digit. -/
def digitsVal (s : List Char) : Option Nat :=
  if s ≠ [] ∧ s.all Char.isDigit = true then
    some (s.foldl (fun n c => n * 10 + (c.toNat - 48)) 0)
  else none

/-- Modelled from the spec: the external `syn` literal re-parser used inside
`DefaultValue::from_lit` (scalar.rs:691 and :729) is not part of this
repository.  It is modelled on unsuffixed decimal integer literals — the
only re-parsed literal forms the verified claims exercise; every other
input is modelled as unparseable. -/
def synParseLit (s : List Char) : Option Lit :=
  match digitsVal s with
  | some n => some (.int n "")
  | none => none

/-- The terminal re-parse of the general string arm of
`DefaultValue::from_lit` (scalar.rs:729-734): a string literal re-parsing
as another string falls through to the failure, any other literal is
resolved through the non-string rules, and an unparseable remainder
fails. -/
def strFallback (ty : Ty) (value : List Char) : Except String DefaultValue :=
  match synParseLit value with
  | some (Lit.str _) => .error ("invalid default value: " ++ String.mk value)
  | some l => fromLitNonStr ty l
  | none => .error ("invalid default value: " ++ String.mk value)

/-- The negative-literal handling of `DefaultValue::from_lit`
(scalar.rs:690-728): the remainder after the leading `-` is re-parsed and
negated through a strictly wider intermediate (`i64` for 32-bit targets at
:695, `i128` for 64-bit targets at :701) before narrowing with `try_from`;
unmatched shapes fall through to the terminal re-parse. -/
def strNeg (ty : Ty) (value rest : List Char) : Except String DefaultValue :=
  match synParseLit rest with
  | some (Lit.int d suffix) =>
    if tyIsI32 ty && emptyOrIs "i32" suffix then
      if d ≤ 9223372036854775807 then
        if -(2147483648 : Int) ≤ -(d : Int) ∧ -(d : Int) ≤ 2147483647 then
          .ok (.i32 (-(d : Int)))
        else .error "out of range integral type conversion attempted"
      else .error "number too large to fit in target type"
    else if tyIsI64 ty && emptyOrIs "i64" suffix then
      if d ≤ 170141183460469231731687303715884105727 then
        if -(9223372036854775808 : Int) ≤ -(d : Int) ∧ -(d : Int) ≤ 9223372036854775807 then
          .ok (.i64 (-(d : Int)))
        else .error "out of range integral type conversion attempted"
      else .error "number too large to fit in target type"
    else if decide (ty = Ty.float) && decide (suffix = "") then .ok (.f32 (-(d : Rat)))
    else if decide (ty = Ty.double) && decide (suffix = "") then .ok (.f64 (-(d : Rat)))
    else strFallback ty value
  | some (Lit.float v suffix) =>
    if decide (ty = Ty.float) && emptyOrIs "f32" suffix then .ok (.f32 (-v))
    else if decide (ty = Ty.double) && emptyOrIs "f64" suffix then .ok (.f64 (-v))
    else strFallback ty value
  | some _ => strFallback ty value
  | none => strFallback ty value

/-- The general string arm of `DefaultValue::from_lit` (scalar.rs:642-735),
reached when the string literal's type is not `string`: trim, resolve enum
variants, resolve the special float tokens, then negative literals, then
the terminal re-parse. -/
def strDefault (ty : Ty) (s : List Char) : Except String DefaultValue :=
  let value := trim s
  match ty with
  | Ty.enumeration p => .ok (.enumeration (.variant p value))
  | _ =>
    if ty = Ty.float ∧ value = "inf".data then .ok (.path "::core::f32::INFINITY")
    else if ty = Ty.float ∧ value = "-inf".data then .ok (.path "::core::f32::NEG_INFINITY")
    else if ty = Ty.float ∧ value = "nan".data then .ok (.path "::core::f32::NAN")
    else if ty = Ty.double ∧ value = "inf".data then .ok (.path "::core::f64::INFINITY")
    else if ty = Ty.double ∧ value = "-inf".data then .ok (.path "::core::f64::NEG_INFINITY")
    else if ty = Ty.double ∧ value = "nan".data then .ok (.path "::core::f64::NAN")
    else
      match value with
      | '-' :: rest => strNeg ty value rest
      | _ => strFallback ty value

/-- Source: `DefaultValue::from_lit` (scalar.rs:605-740).  A string literal
for a string-typed field resolves directly (scalar.rs:639); any other
string literal goes through the general string arm; non-string literals
through the scalar arms. -/
def from_lit (ty : Ty) (lit : Lit) : Except String DefaultValue :=
  match lit with
  | .str s => if ty = Ty.string then .ok (.string s) else strDefault ty s
  | l => fromLitNonStr ty l

/-- Source: `DefaultValue::new` (scalar.rs:742-758), the canonical zero
value of each scalar type. -/
def DefaultValue.new (ty : Ty) : DefaultValue :=
  match ty with
  | .float => .f32 0
  | .double => .f64 0
  | .int32 | .sint32 | .sfixed32 => .i32 0
  | .int64 | .sint64 | .sfixed64 => .i64 0
  | .uint32 | .fixed32 => .u32 0
  | .uint64 | .fixed64 => .u64 0
  | .bool => .bool false
  | .string => .string []
  | .bytes => .bytes []
  | .enumeration p => .enumeration (.defaultCall p)

/-- The token stream produced by `DefaultValue::typed` (scalar.rs:776-782):
an enumeration default is spliced as `super::#self as i32`, every other
default as its own tokens. -/
inductive TypedDefault
  | enumCast (e : EnumExpr)
  | lit (d : DefaultValue)
deriving DecidableEq, Repr

/-- Source: `DefaultValue::typed` (scalar.rs:776-782). -/
def DefaultValue.typed : DefaultValue → TypedDefault
  | .enumeration e => .enumCast e
  | d => .lit d

/-- Modelled from the spec: a raw annotation record (§4.1, §6).  The host
attribute syntax is out of scope and annotations arrive already structured,
so each recognized category (type marker, packed flag, tag, registered-type
name, cardinality label, default literal) is one constructor; everything
else is an unrecognized annotation.  The recognizer helpers `bool_attr`,
`tag_attr`, `amino_name_attr` and `Label::from_attr` live in the field
module, which is not under src/, and are modelled by these category
projections; `Ty::from_attr` (scalar.rs:405-446) yields exactly the type
marker of a `tyAttr`. -/
inductive Meta
  | tyAttr (t : Ty)
  | packedAttr (b : Bool)
  | tagAttr (n : Nat)
  | aminoNameAttr (s : List Char)
  | labelAttr (l : Label)
  | defaultAttr (lit : Lit)
  | unknown
deriving DecidableEq, Repr

/-- The options accumulated by the annotation scan loop of `Field::new`
(scalar.rs:25-50).  `defaultLit` is the source's `default` slot,
`unknownAttrs` the source's `unknown_attrs` list. -/
structure ScanState where
  ty : Option Ty
  label : Option Label
  packed : Option Bool
  defaultLit : Option Lit
  tag : Option Nat
  aminoName : Option (List Char)
  unknownAttrs : List Meta
deriving DecidableEq, Repr

/-- Modelled from the spec: the field module's `set_option` helper (its
source is not under src/).  It fills an empty slot and fails with the
duplicate-attribute message passed by the caller when the slot is already
occupied (§4.1: each recognized annotation category may appear at most
once; a second occurrence is a DuplicateAttribute error naming the
category). -/
def setOption {α : Type} (slot : Option α) (v : α) (msg : String) :
    Except String (Option α) :=
  match slot with
  | none => .ok (some v)
  | some _ => .error msg

/-- The annotation scan loop of `Field::new` (scalar.rs:34-50): each
recognized annotation fills its slot through `set_option` (failing fast on
a duplicate); unrecognized annotations are collected. -/
def scanAttrs : List Meta → ScanState → Except String ScanState
  | [], st => .ok st
  | attr :: rest, st =>
    match attr with
    | .tyAttr t =>
      match setOption st.ty t "duplicate type attributes" with
      | .error e => .error e
      | .ok o => scanAttrs rest { st with ty := o }
    | .packedAttr b =>
      match setOption st.packed b "duplicate packed attributes" with
      | .error e => .error e
      | .ok o => scanAttrs rest { st with packed := o }
    | .tagAttr n =>
      match setOption st.tag n "duplicate tag attributes" with
      | .error e => .error e
      | .ok o => scanAttrs rest { st with tag := o }
    | .aminoNameAttr nm =>
      match setOption st.aminoName nm "duplicate amino_name attributes" with
      | .error e => .error e
      | .ok o => scanAttrs rest { st with aminoName := o }
    | .labelAttr l =>
      match setOption st.label l "duplicate label attributes" with
      | .error e => .error e
      | .ok o => scanAttrs rest { st with label := o }
    | .defaultAttr d =>
      match setOption st.defaultLit d "duplicate default attributes" with
      | .error e => .error e
      | .ok o => scanAttrs rest { st with defaultLit := o }
    | .unknown => scanAttrs rest { st with unknownAttrs := st.unknownAttrs ++ [attr] }

/-- The kind-derivation match of `Field::new` (scalar.rs:73-93), factored
as a named helper: cardinality label × packed flag × presence of an
explicit default determine the `Kind`, with the three error cases in
source arm order. -/
def scalarKind (label : Option Label) (packed : Option Bool) (has_default : Bool)
    (ty : Ty) (dflt : DefaultValue) : Except String Kind :=
  match label, packed, has_default with
  | none, some true, _ | some .optional, some true, _ | some .required, some true, _ =>
    .error "packed attribute may only be applied to repeated fields"
  | some .repeated, some true, hd =>
    if !ty.is_numeric then .error "packed attribute may only be applied to numeric types"
    else if hd then .error "repeated fields may not have a default value"
    else .ok .packed
  | some .repeated, p, hd =>
    if hd then .error "repeated fields may not have a default value"
    else if p.getD ty.is_numeric then .ok .packed
    else .ok .repeated
  | none, _, _ => .ok (.plain dflt)
  | some .optional, _, _ => .ok (.optional dflt)
  | some .required, _, _ => .ok (.required dflt)

/-- Source: `Field::new` (scalar.rs:24-108).  `df` is the injected amino
disambiguation service `compute_disfix` (its source is not under src/; the
spec prescribes treating it as an injected pure function
name → (discriminator, prefix bytes), of which only the prefix bytes are
retained, scalar.rs:94-100). -/
def Field.new (df : List Char → List Nat × List Nat) (attrs : List Meta)
    (inferredTag : Option Nat) : Except String (Option Field) :=
  match scanAttrs attrs ⟨none, none, none, none, none, none, []⟩ with
  | .error e => .error e
  | .ok st =>
    match st.ty with
    | none => .ok none
    | some ty =>
      match st.unknownAttrs with
      | [] =>
        match st.tag.or inferredTag with
        | none => .error "missing tag attribute"
        | some tag =>
          let hasDefault := st.defaultLit.isSome
          match (match st.defaultLit with
                 | none => Except.ok (DefaultValue.new ty)
                 | some l => from_lit ty l) with
          | .error e => .error e
          | .ok dflt =>
            match scalarKind st.label st.packed hasDefault ty dflt with
            | .error e => .error e
            | .ok kind =>
              let aminoPre := match st.aminoName with
                | some n => (df n).2
                | none => []
              .ok (some ⟨ty, kind, tag, aminoPre⟩)
      | [_] => .error "unknown attribute"
      | _ :: _ :: _ => .error "unknown attributes"

/-- Source: `Field::new_oneof` (scalar.rs:110-124). -/
def Field.new_oneof (df : List Char → List Nat × List Nat) (attrs : List Meta) :
    Except String (Option Field) :=
  match Field.new df attrs none with
  | .error e => .error e
  | .ok none => .ok none
  | .ok (some field) =>
    match field.kind with
    | .plain d => .ok (some { field with kind := .required d })
    | .optional _ => .error "invalid optional attribute on oneof field"
    | .required _ => .error "invalid required attribute on oneof field"
    | .packed | .repeated => .error "invalid repeated attribute on oneof field"

/-- One encode/merge/length call site in the emitted code: the codec
module, the primitive function named, the spliced tag (absent for merge
calls, which take the wire type instead), and the prefix-byte argument
when one is passed (`&vec![..]` in the emitted tokens). -/
structure EncodeCall where
  module : String
  fn : String
  tag : Nat
  preArg : Option (List Nat)
deriving DecidableEq, Repr

/-- The emitted encode operation (`Field::encode`, scalar.rs:126-169).
`ifNotDefault d c` stands for `if ident != d { c }` (the default-omission
guard), `ifSome c` for `if let Some(ref value) = ident { c }`, and
`always c` for the bare call. -/
inductive EncodeExpr
  | ifNotDefault (dflt : TypedDefault) (call : EncodeCall)
  | ifSome (call : EncodeCall)
  | always (call : EncodeCall)
deriving DecidableEq, Repr

/-- Source: `Field::encode` (scalar.rs:126-169).  The primitive name is
chosen first for all of Plain/Optional/Required — the prefix-aware
`encode_with_prefix` whenever the prefix is non-empty (scalar.rs:128-135) —
but only the Plain arm passes the prefix bytes as an argument
(scalar.rs:145-151). -/
def Field.encode (f : Field) : EncodeExpr :=
  let module := f.ty.module
  let encode_fn : String :=
    match f.kind with
    | .plain _ | .optional _ | .required _ =>
      if 0 < f.aminoPre.length then "encode_with_prefix" else "encode"
    | .repeated => "encode_repeated"
    | .packed => "encode_packed"
  match f.kind with
  | .plain d =>
    if 0 < f.aminoPre.length then
      .ifNotDefault d.typed ⟨module, encode_fn, f.tag, some f.aminoPre⟩
    else
      .ifNotDefault d.typed ⟨module, encode_fn, f.tag, none⟩
  | .optional _ => .ifSome ⟨module, encode_fn, f.tag, none⟩
  | .required _ | .repeated | .packed => .always ⟨module, encode_fn, f.tag, none⟩

/-- One merge call site in the emitted decode code: codec module, function
name, and the prefix-byte argument when one is passed. -/
structure MergeCall where
  module : String
  fn : String
  preArg : Option (List Nat)
deriving DecidableEq, Repr

/-- The emitted merge operation (`Field::merge`, scalar.rs:173-205).
`plainTarget c` merges into `&mut ident`; `optionalTarget c` merges into
`ident.get_or_insert_with(Default::default)` — the current value, or a
freshly defaulted one inserted when the option is absent. -/
inductive MergeExpr
  | plainTarget (call : MergeCall)
  | optionalTarget (call : MergeCall)
deriving DecidableEq, Repr

/-- Source: `Field::merge` (scalar.rs:173-205).  `decodeWithPre` is the
source's `decode_with_prefix` flag (renamed): prefix non-empty and the
codec module is `bytes`. -/
def Field.merge (f : Field) : MergeExpr :=
  let module := f.ty.module
  let merge_fn : String :=
    match f.kind with
    | .plain _ | .optional _ | .required _ => "merge"
    | .repeated | .packed => "merge_repeated"
  let decodeWithPre := decide (0 < f.aminoPre.length) && decide (module = "bytes")
  let merge_fn := if decodeWithPre then "merge_with_prefix" else merge_fn
  match f.kind with
  | .plain _ | .required _ | .repeated | .packed =>
    if decodeWithPre then .plainTarget ⟨module, merge_fn, some f.aminoPre⟩
    else .plainTarget ⟨module, merge_fn, none⟩
  | .optional _ => .optionalTarget ⟨module, merge_fn, none⟩

/-- The call projection of a merge expression. -/
def MergeExpr.call : MergeExpr → MergeCall
  | .plainTarget c => c
  | .optionalTarget c => c

/-- Whether the merge expression targets the materialized option. -/
def MergeExpr.isOptionalTarget : MergeExpr → Bool
  | .plainTarget _ => false
  | .optionalTarget _ => true

/-- The emitted encoded-length operation (`Field::encoded_len`,
scalar.rs:208-241).  `plainLen d m fn t plus5` stands for
`if ident != d { if plus5 { fn(t, &ident) + 5 } else { fn(t, &ident) } }
else { 0 }` — the source splices the compile-time bool
`is_amino_prefixed` as a literal; `optionalLen m fn t` for
`ident.as_ref().map_or(0, |value| fn(t, value))`; `alwaysLen m fn t` for
the bare `fn(t, &ident)`. -/
inductive LenExpr
  | plainLen (dflt : TypedDefault) (module fn : String) (tag : Nat) (plus5 : Bool)
  | optionalLen (module fn : String) (tag : Nat)
  | alwaysLen (module fn : String) (tag : Nat)
deriving DecidableEq, Repr

/-- Source: `Field::encoded_len` (scalar.rs:208-241). -/
def Field.encoded_len (f : Field) : LenExpr :=
  let module := f.ty.module
  let encoded_len_fn : String :=
    match f.kind with
    | .plain _ | .optional _ | .required _ => "encoded_len"
    | .repeated => "encoded_len_repeated"
    | .packed => "encoded_len_packed"
  let isAminoPrefixed := decide (0 < f.aminoPre.length)
  match f.kind with
  | .plain d => .plainLen d.typed module encoded_len_fn f.tag isAminoPrefixed
  | .optional _ => .optionalLen module encoded_len_fn f.tag
  | .required _ | .repeated | .packed => .alwaysLen module encoded_len_fn f.tag

/-! Theorems -/

/-- Claim C1 (exhibit of the divergence): for an Optional bytes field whose
registered prefix is non-empty, the emitted encode operation is guarded on
option presence but calls the prefix-aware primitive name
`encode_with_prefix` — while passing no prefix argument — instead of the
unprefixed `encode` primitive the claim describes. -/
theorem encode_optional_registered_divergence :
    Field.encode ⟨Ty.bytes, Kind.optional (DefaultValue.bytes []), 1, [11, 22, 33, 44]⟩
      = EncodeExpr.ifSome ⟨"bytes", "encode_with_prefix", 1, none⟩
    ∧ Field.encode ⟨Ty.bytes, Kind.optional (DefaultValue.bytes []), 1, [11, 22, 33, 44]⟩
      ≠ EncodeExpr.ifSome ⟨"bytes", "encode", 1, none⟩ := by
  exact ⟨rfl, by decide⟩

/-- Claim C2: the kind derivation of descriptor construction
(scalar.rs:73-93) follows the claim's ordered rules: packed=true off a
repeated cardinality is an invalid-packed error; packed=true on a repeated
non-numeric element type is an invalid-packed error; a repeated cardinality
with an explicit default is a repeated-with-default error; otherwise no
label gives Plain, optional gives Optional, required gives Required, and
repeated gives Packed exactly when packed is explicitly true or packed is
unset with a numeric element type, Repeated otherwise. -/
theorem scalar_kind_rules (label : Option Label) (packed : Option Bool) (hd : Bool)
    (ty : Ty) (d : DefaultValue) :
    scalarKind label packed hd ty d =
      if packed = some true ∧ label ≠ some Label.repeated then
        .error "packed attribute may only be applied to repeated fields"
      else if packed = some true ∧ label = some Label.repeated ∧ ty.is_numeric = false then
        .error "packed attribute may only be applied to numeric types"
      else if label = some Label.repeated ∧ hd = true then
        .error "repeated fields may not have a default value"
      else
        match label with
        | none => .ok (Kind.plain d)
        | some Label.optional => .ok (Kind.optional d)
        | some Label.required => .ok (Kind.required d)
        | some Label.repeated =>
          if packed = some true ∨ (packed = none ∧ ty.is_numeric = true) then .ok Kind.packed
          else .ok Kind.repeated := by
  cases hnum : ty.is_numeric <;>
    rcases label with _ | (_ | _ | _) <;>
    rcases packed with _ | (_ | _) <;>
    cases hd <;>
    simp [scalarKind, hnum]

/-- Claim C4: the emitted encoded-length operation returns, for Plain, zero
when the value equals the resolved default and otherwise the primitive
length with a fixed 5-byte allowance exactly when the registered prefix is
non-empty; for Optional, zero when absent and the primitive length
otherwise; for Required/Repeated/Packed always the corresponding primitive
length, packed via `encoded_len_packed` and repeated via
`encoded_len_repeated`. -/
theorem encoded_len_matrix (f : Field) :
    Field.encoded_len f =
      match f.kind with
      | .plain d =>
        LenExpr.plainLen d.typed f.ty.module "encoded_len" f.tag (decide (f.aminoPre ≠ []))
      | .optional _ => LenExpr.optionalLen f.ty.module "encoded_len" f.tag
      | .required _ => LenExpr.alwaysLen f.ty.module "encoded_len" f.tag
      | .repeated => LenExpr.alwaysLen f.ty.module "encoded_len_repeated" f.tag
      | .packed => LenExpr.alwaysLen f.ty.module "encoded_len_packed" f.tag := by
  have hdec : ∀ (l : List Nat), decide (0 < l.length) = decide (l ≠ []) :=
    fun l => decide_eq_decide.mpr List.length_pos
  obtain ⟨ty, kind, tag, pre⟩ := f
  cases kind <;> simp [Field.encoded_len, hdec]

/-- Claim C8: default resolution with no literal supplied returns each
scalar type's canonical zero value: 0 for the integer types, 0.0 for float
and double, false for bool, the empty string, the empty byte sequence, and
the enum type's declared default-variant expression for enumerations. -/
theorem default_zero_values :
    DefaultValue.new Ty.float = .f32 0
    ∧ DefaultValue.new Ty.double = .f64 0
    ∧ DefaultValue.new Ty.int32 = .i32 0
    ∧ DefaultValue.new Ty.sint32 = .i32 0
    ∧ DefaultValue.new Ty.sfixed32 = .i32 0
    ∧ DefaultValue.new Ty.int64 = .i64 0
    ∧ DefaultValue.new Ty.sint64 = .i64 0
    ∧ DefaultValue.new Ty.sfixed64 = .i64 0
    ∧ DefaultValue.new Ty.uint32 = .u32 0
    ∧ DefaultValue.new Ty.fixed32 = .u32 0
    ∧ DefaultValue.new Ty.uint64 = .u64 0
    ∧ DefaultValue.new Ty.fixed64 = .u64 0
    ∧ DefaultValue.new Ty.bool = .bool false
    ∧ DefaultValue.new Ty.string = .string []
    ∧ DefaultValue.new Ty.bytes = .bytes []
    ∧ ∀ p, DefaultValue.new (Ty.enumeration p) = .enumeration (.defaultCall p) := by
  exact ⟨rfl, rfl, rfl, rfl, rfl, rfl, rfl, rfl, rfl, rfl, rfl, rfl, rfl, rfl, rfl,
    fun p => rfl⟩

/-- Claim C3: the emitted merge operation names the prefix-aware
`merge_with_prefix` exactly when the registered prefix is non-empty and the
codec module is `bytes`; otherwise it names `merge` for
Plain/Optional/Required and `merge_repeated` for Repeated/Packed; and the
merge target is the materialized option (current value, or a freshly
defaulted one inserted when absent) exactly for Optional kinds. -/
theorem merge_selection (f : Field) :
    ((Field.merge f).call.fn = "merge_with_prefix"
      ↔ f.aminoPre ≠ [] ∧ f.ty.module = "bytes")
    ∧ (¬(f.aminoPre ≠ [] ∧ f.ty.module = "bytes") →
      (Field.merge f).call.fn =
        match f.kind with
        | .plain _ | .optional _ | .required _ => "merge"
        | .repeated | .packed => "merge_repeated")
    ∧ ((Field.merge f).isOptionalTarget = true ↔ ∃ d, f.kind = Kind.optional d) := by
  have h1 : ("merge" : String) ≠ "merge_with_prefix" := by decide
  have h2 : ("merge_repeated" : String) ≠ "merge_with_prefix" := by decide
  obtain ⟨ty, kind, tag, pre⟩ := f
  by_cases hb : Ty.module ty = "bytes" <;> by_cases hp : pre = []
  · subst hp
    cases kind <;>
      simp [Field.merge, MergeExpr.call, MergeExpr.isOptionalTarget, hb, h1, h2]
  · have hlen : decide (0 < pre.length) = true := decide_eq_true (List.length_pos.mpr hp)
    cases kind <;>
      simp [Field.merge, MergeExpr.call, MergeExpr.isOptionalTarget, hb, hp, hlen, h1, h2]
  · subst hp
    cases kind <;>
      simp [Field.merge, MergeExpr.call, MergeExpr.isOptionalTarget, hb, h1, h2]
  · have hlen : decide (0 < pre.length) = true := decide_eq_true (List.length_pos.mpr hp)
    cases kind <;>
      simp [Field.merge, MergeExpr.call, MergeExpr.isOptionalTarget, hb, hp, hlen, h1, h2]

/-- Witness for C3: a registered plain bytes field merges through
`merge_with_prefix`, and an unregistered repeated field through
`merge_repeated`, by the selection theorem. -/
theorem merge_selection_witness :
    (Field.merge ⟨Ty.bytes, Kind.plain (DefaultValue.bytes []), 1, [11, 22, 33, 44]⟩).call.fn
      = "merge_with_prefix"
    ∧ (Field.merge ⟨Ty.int32, Kind.repeated, 2, []⟩).call.fn = "merge_repeated" := by
  constructor
  · exact (merge_selection _).1.mpr ⟨by decide, rfl⟩
  · exact (merge_selection _).2.1 (by decide)

/-- Claim C6: promotion of a scalar descriptor into a one-of group turns a
derived Plain kind into Required with the same default and the same
descriptor otherwise, and rejects derived Optional, Repeated and Packed
kinds with the corresponding one-of errors. -/
theorem new_oneof_promotion (df : List Char → List Nat × List Nat) (attrs : List Meta)
    (f : Field) (h : Field.new df attrs none = .ok (some f)) :
    (∀ d, f.kind = Kind.plain d →
      Field.new_oneof df attrs = .ok (some { f with kind := Kind.required d }))
    ∧ (∀ d, f.kind = Kind.optional d →
      Field.new_oneof df attrs = .error "invalid optional attribute on oneof field")
    ∧ ((f.kind = Kind.repeated ∨ f.kind = Kind.packed) →
      Field.new_oneof df attrs = .error "invalid repeated attribute on oneof field") := by
  refine ⟨?_, ?_, ?_⟩
  · intro d hk
    simp [Field.new_oneof, h, hk]
  · intro d hk
    simp [Field.new_oneof, h, hk]
  · rintro (hk | hk) <;> simp [Field.new_oneof, h, hk]

/-- Witness for C6: a plain int32 descriptor is promoted to Required, and an
optional one is rejected, instantiating the promotion theorem. -/
theorem new_oneof_promotion_witness :
    Field.new_oneof (fun _ => ([], [])) [Meta.tyAttr Ty.int32, Meta.tagAttr 1]
      = .ok (some ⟨Ty.int32, Kind.required (DefaultValue.i32 0), 1, []⟩)
    ∧ Field.new_oneof (fun _ => ([], []))
        [Meta.tyAttr Ty.int32, Meta.labelAttr Label.optional, Meta.tagAttr 1]
      = .error "invalid optional attribute on oneof field" := by
  constructor
  · have h : Field.new (fun _ => ([], [])) [Meta.tyAttr Ty.int32, Meta.tagAttr 1] none
        = .ok (some ⟨Ty.int32, Kind.plain (DefaultValue.i32 0), 1, []⟩) := rfl
    exact (new_oneof_promotion _ _ _ h).1 (DefaultValue.i32 0) rfl
  · have h : Field.new (fun _ => ([], []))
        [Meta.tyAttr Ty.int32, Meta.labelAttr Label.optional, Meta.tagAttr 1] none
        = .ok (some ⟨Ty.int32, Kind.optional (DefaultValue.i32 0), 1, []⟩) := rfl
    exact (new_oneof_promotion _ _ _ h).2.1 (DefaultValue.i32 0) rfl

/-- Claim C9: a descriptor whose derived kind is Required is also rejected
by the one-of promotion, with the "invalid required attribute on oneof
field" error; only a derived Plain kind is ever accepted. -/
theorem new_oneof_only_plain (df : List Char → List Nat × List Nat) (attrs : List Meta) :
    (∀ f d, Field.new df attrs none = .ok (some f) → f.kind = Kind.required d →
      Field.new_oneof df attrs = .error "invalid required attribute on oneof field")
    ∧ (∀ g, Field.new_oneof df attrs = .ok (some g) →
      ∃ f d, Field.new df attrs none = .ok (some f) ∧ f.kind = Kind.plain d) := by
  constructor
  · intro f d h hk
    simp [Field.new_oneof, h, hk]
  · intro g hg
    unfold Field.new_oneof at hg
    cases hnew : Field.new df attrs none with
    | error e => rw [hnew] at hg; cases hg
    | ok o =>
      rw [hnew] at hg
      cases o with
      | none => cases hg
      | some f =>
        cases hk : f.kind with
        | plain d => exact ⟨f, d, rfl, hk⟩
        | optional d => simp [hk] at hg
        | required d => simp [hk] at hg
        | repeated => simp [hk] at hg
        | packed => simp [hk] at hg

/-- Witness for C9: an int32 descriptor carrying an explicit required label
derives the Required kind and is rejected by the one-of promotion,
instantiating the theorem. -/
theorem new_oneof_only_plain_witness :
    Field.new_oneof (fun _ => ([], []))
        [Meta.tyAttr Ty.int32, Meta.labelAttr Label.required, Meta.tagAttr 1]
      = .error "invalid required attribute on oneof field" := by
  exact (new_oneof_only_plain _ _).1
    ⟨Ty.int32, Kind.required (DefaultValue.i32 0), 1, []⟩ (DefaultValue.i32 0)
    rfl rfl

/-- The annotation scan on a list of unrecognized annotations only collects
them. -/
theorem scanAttrs_replicate_unknown (k : Nat) (st : ScanState) :
    scanAttrs (List.replicate k Meta.unknown) st
      = .ok { st with unknownAttrs := st.unknownAttrs ++ List.replicate k Meta.unknown } := by
  induction k generalizing st with
  | zero => simp [scanAttrs]
  | succ n ih => simp [List.replicate_succ, scanAttrs, ih, List.append_assoc]

/-- Claim C10: duplicate-annotation detection fires during the scan, before
the type-marker presence check — two tag annotations yield the duplicate
error even with no type marker and whatever follows them — while a set of
only unrecognized annotations (no type marker) is the Ok-none "not my
field" result, and an unrecognized annotation is reported as an error only
when a type marker is present. -/
theorem duplicate_before_type_marker (df : List Char → List Nat × List Nat) :
    (∀ a b rest, Field.new df (Meta.tagAttr a :: Meta.tagAttr b :: rest) none
      = .error "duplicate tag attributes")
    ∧ (∀ k, Field.new df (List.replicate k Meta.unknown) none = .ok none)
    ∧ Field.new df [Meta.tyAttr Ty.int32, Meta.tagAttr 1, Meta.unknown] none
      = .error "unknown attribute" := by
  refine ⟨?_, ?_, ?_⟩
  · intro a b rest
    simp [Field.new, scanAttrs, setOption]
  · intro k
    simp [Field.new, scanAttrs_replicate_unknown]
  · simp [Field.new, scanAttrs, setOption]

/-- A digit character is not whitespace. -/
theorem digit_not_ws {c : Char} (h : c.isDigit = true) : c.isWhitespace = false := by
  simp [Char.isDigit, Char.isWhitespace] at h ⊢
  obtain ⟨h1, h2⟩ := h
  refine ⟨⟨⟨?_, ?_⟩, ?_⟩, ?_⟩ <;> rintro rfl <;> revert h1 h2 <;> decide

/-- `dropWhile` is the identity on a list none of whose elements satisfy
the predicate. -/
theorem dropWhile_of_no (p : Char → Bool) (cs : List Char) (h : ∀ c ∈ cs, p c = false) :
    cs.dropWhile p = cs := by
  cases cs with
  | nil => rfl
  | cons c t => simp [List.dropWhile_cons, h c (List.mem_cons_self c t)]

/-- Trimming a whitespace-free character list is the identity. -/
theorem trim_of_no_ws {cs : List Char} (h : ∀ c ∈ cs, c.isWhitespace = false) :
    trim cs = cs := by
  unfold trim
  rw [dropWhile_of_no _ _ h,
    dropWhile_of_no _ _ (fun c hc => h c (List.mem_reverse.mp hc)),
    List.reverse_reverse]

/-- Claim C5: for the 32-bit signed targets, a string default consisting of
a leading minus and digits of value n re-parses the digits through the i64
intermediate (failing only past the i64 range) and negates before narrowing
to i32, so the result is -n exactly when -n is representable (n ≤ 2^31) and
an overflow error otherwise; for the 64-bit signed targets likewise through
the i128 intermediate with the i64 bound.  In particular "-2147483648"
resolves to the minimum i32 and "-2147483649" fails. -/
theorem from_lit_negative_int (s : List Char) (n : Nat) (h : digitsVal s = some n) :
    (∀ ty, ty = Ty.int32 ∨ ty = Ty.sint32 ∨ ty = Ty.sfixed32 →
      from_lit ty (Lit.str ('-' :: s)) =
        if n ≤ 9223372036854775807 then
          if n ≤ 2147483648 then Except.ok (DefaultValue.i32 (-(n : Int)))
          else Except.error "out of range integral type conversion attempted"
        else Except.error "number too large to fit in target type")
    ∧ (∀ ty, ty = Ty.int64 ∨ ty = Ty.sint64 ∨ ty = Ty.sfixed64 →
      from_lit ty (Lit.str ('-' :: s)) =
        if n ≤ 170141183460469231731687303715884105727 then
          if n ≤ 9223372036854775808 then Except.ok (DefaultValue.i64 (-(n : Int)))
          else Except.error "out of range integral type conversion attempted"
        else Except.error "number too large to fit in target type") := by
  have hall : ∀ c ∈ s, c.isDigit = true := by
    have h' := h
    unfold digitsVal at h'
    split at h'
    · rename_i hcond
      exact fun c hc => List.all_eq_true.mp hcond.2 c hc
    · exact Option.noConfusion h'
  have hsyn : synParseLit s = some (Lit.int n "") := by
    unfold synParseLit
    rw [h]
  have htrim : trim ('-' :: s) = '-' :: s := by
    apply trim_of_no_ws
    intro c hc
    rcases List.mem_cons.mp hc with rfl | hmem
    · decide
    · exact digit_not_ws (hall c hmem)
  have hng32 : -(n : Int) ≤ 2147483647 := by omega
  have hng64 : -(n : Int) ≤ 9223372036854775807 := by omega
  constructor
  · rintro ty (rfl | rfl | rfl) <;>
      simp [from_lit, strDefault, htrim, strNeg, hsyn, tyIsI32, tyIsI64, emptyOrIs, hng32]
  · rintro ty (rfl | rfl | rfl) <;>
      simp [from_lit, strDefault, htrim, strNeg, hsyn, tyIsI32, tyIsI64, emptyOrIs, hng64]

/-- Witness for C5: "-2147483648" resolves to the minimum i32 value and
"-2147483649" overflows the narrowing, instantiating the negative-literal
theorem. -/
theorem from_lit_negative_int_witness :
    from_lit Ty.int32 (Lit.str ('-' :: "2147483648".data))
      = .ok (DefaultValue.i32 (-2147483648))
    ∧ from_lit Ty.int32 (Lit.str ('-' :: "2147483649".data))
      = .error "out of range integral type conversion attempted" := by
  constructor
  · have hx := (from_lit_negative_int "2147483648".data 2147483648 (by decide)).1
      Ty.int32 (Or.inl rfl)
    rw [hx]
    norm_num
  · have hx := (from_lit_negative_int "2147483649".data 2147483649 (by decide)).1
      Ty.int32 (Or.inl rfl)
    rw [hx]
    norm_num

/-- Claim C7, counterexample: the special float tokens are matched
case-sensitively — the uppercase spelling "INF" for a float default is a
resolution error, not the positive-infinity constant the claim's
case-insensitive reading requires. -/
theorem special_float_case_cex :
    from_lit Ty.float (Lit.str "INF".data) = .error "invalid default value: INF"
    ∧ from_lit Ty.float (Lit.str "INF".data)
      ≠ .ok (DefaultValue.path "::core::f32::INFINITY") := by
  exact ⟨rfl, by decide⟩

/-- Claim C7 as amended: for float and double targets, default resolution
of a string literal recognizes the exact lowercase tokens "inf", "-inf" and
"nan" (case-sensitively) and resolves them to the target type's
positive-infinity, negative-infinity and NaN constants instead of parsing
them as digits. -/
theorem special_float_tokens :
    from_lit Ty.float (Lit.str "inf".data) = .ok (DefaultValue.path "::core::f32::INFINITY")
    ∧ from_lit Ty.float (Lit.str "-inf".data)
      = .ok (DefaultValue.path "::core::f32::NEG_INFINITY")
    ∧ from_lit Ty.float (Lit.str "nan".data) = .ok (DefaultValue.path "::core::f32::NAN")
    ∧ from_lit Ty.double (Lit.str "inf".data) = .ok (DefaultValue.path "::core::f64::INFINITY")
    ∧ from_lit Ty.double (Lit.str "-inf".data)
      = .ok (DefaultValue.path "::core::f64::NEG_INFINITY")
    ∧ from_lit Ty.double (Lit.str "nan".data) = .ok (DefaultValue.path "::core::f64::NAN") := by
  exact ⟨rfl, rfl, rfl, rfl, rfl, rfl⟩

end Scalar
